import Mathlib

/-!
Verification of the Graphive graph-synchronization core.

The definitions below are a shallow embedding of the TypeScript source:

* `useGraphStore` (store operations: draft lifecycle, optimistic
  mutation with rollback, deletion, edge reversal) — each asynchronous
  store operation is split into its synchronous phase, which mutates the
  local state and names the backend call it issues, and its resolution
  phases (success / failure rollback), exactly as the `set` calls are
  placed around the `await` points in the source;
* the Neo4j adapter (`Neo4jAdapter`) and FalkorDB adapter
  (`FalkorDBAdapter`) — label sanitization, relationship reversal, and
  the FalkorDB auth/`runQuery` control flow;
* the UI save handlers of `RectangleNode` and `SmartEdge` which decide
  between committing and discarding a draft.

Node and edge `data` objects are modelled as JavaScript-like records:
association lists of string keys to `JVal` values, where a missing key
reads as `JVal.vundef` (JavaScript `undefined`) and a spread update
`\x7b...data, [key]: value\x7d` is `setProp`.
-/

namespace Graphive

/-- A JavaScript value stored in a node/edge `data` record. `vundef` is
JavaScript `undefined` (the result of reading an absent key). -/
inductive JVal where
  | vstr (s : String)
  | vnum (n : Int)
  | vbool (b : Bool)
  | vundef
deriving Repr, DecidableEq

/-- JavaScript truthiness of a `JVal` (used for `!node.data.isDraft`). -/
def JVal.truthy : JVal → Bool
  | .vstr s => !s.isEmpty
  | .vnum n => n != 0
  | .vbool b => b
  | .vundef => false

/-- A JS object holding node/edge payload: ordered key/value pairs. -/
abbrev DataMap := List (String × JVal)

/-- Property read `data[key]`: `undefined` when the key is absent. -/
def getProp (d : DataMap) (k : String) : JVal :=
  match d.find? (fun p => p.1 == k) with
  | some p => p.2
  | none => JVal.vundef

/-- Spread update `\x7b...d, [k]: v\x7d`: replace the binding in place,
or append it when the key is new. -/
def setProp : DataMap → String → JVal → DataMap
  | [], k, v => [(k, v)]
  | (k', v') :: rest, k, v =>
    if k' == k then (k', v) :: rest else (k', v') :: setProp rest k v

/-- A React Flow node as held by the store (`Node<NodeData>`): id, visual
type tag, canvas position (opaque payload), `data` record, and the
core-owned `selected`/`hidden` flags. -/
structure GNode where
  id : String
  ntype : String
  position : Int × Int
  data : DataMap
  selected : Bool
  hidden : Bool
deriving Repr, DecidableEq

/-- A React Flow edge as held by the store. -/
structure GEdge where
  id : String
  source : String
  target : String
  sourceHandle : Option String
  targetHandle : Option String
  etype : String
  data : DataMap
  selected : Bool
  hidden : Bool
deriving Repr, DecidableEq

/-- The slice of `useGraphStore` state the synchronization core mutates. -/
structure StoreState where
  nodes : List GNode
  edges : List GEdge
  isSyncing : Bool
  syncError : Option String
  isDeleteModalOpen : Bool
deriving Repr, DecidableEq

/-- JavaScript `String.prototype.trim`: strip whitespace from both
ends (kernel-computable model of `.trim()`). -/
def jsTrim (s : String) : String :=
  String.mk (((s.data.dropWhile Char.isWhitespace).reverse.dropWhile
    Char.isWhitespace).reverse)

/-- `node.data.isDraft` read with JS truthiness. -/
def isDraftNode (n : GNode) : Bool := (getProp n.data "isDraft").truthy

/-- `edge.data.isDraft` read with JS truthiness. -/
def isDraftEdge (e : GEdge) : Bool := (getProp e.data "isDraft").truthy

/-- One call to the backend Query/CRUD surface, as issued by the store
through the active adapter. -/
inductive BackendCall where
  | createNode (label : String)
  | updateNodeName (id label : String)
  | deleteNode (id : String)
  | createEdge (edgeId source target label : String)
  | updateEdgeLabel (edgeId label : String)
  | deleteEdge (edgeId : String)
  | reverseRelationship (edgeId : String)
  | migrateRelationship (edgeId newSource newTarget : String)
  | updateNodeProperty (nodeId key : String) (value : JVal)
  | deleteNodeProperty (nodeId key : String)
  | addNodeLabel (nodeId label : String)
  | removeNodeLabel (nodeId label : String)
deriving Repr, DecidableEq

/-- `nodes.map(n => n.id === nodeId ? f(n) : n)` — the per-entity patch
pattern every store mutation uses. -/
def mapNodesById (nodes : List GNode) (nodeId : String) (f : GNode → GNode) :
    List GNode :=
  nodes.map (fun n => if n.id == nodeId then f n else n)

/-! ## Store operations (`useGraphStore`)

Each operation is the faithful translation of one store action.  An
operation that issues backend calls returns them alongside the new
state; the asynchronous resolution (`.then` / `.catch`, or the code
after `await`) is a separate function applied to the state current at
resolution time. -/

/-- `addNode` (V13 draft creation): append a draft node; no backend call.
The generated counter id is passed in as `nodeId`. -/
def addNode (s : StoreState) (ntype : String) (pos : Int × Int)
    (nodeId : String) : StoreState × List BackendCall :=
  ({ s with nodes := s.nodes ++
      [{ id := nodeId, ntype := ntype, position := pos,
         data := [("label", JVal.vstr ""), ("isEditing", JVal.vbool true),
                  ("isDraft", JVal.vbool true)],
         selected := false, hidden := false }] }, [])

/-- `onConnect` (V20 draft edge creation): reject self-loops, otherwise
add a local draft edge only — no backend call.  The generated edge id is
passed in as `edgeId`. -/
def onConnect (s : StoreState) (source target : String)
    (sourceHandle targetHandle : Option String) (edgeId : String) :
    StoreState × List BackendCall :=
  if source == target then (s, [])
  else
    ({ s with edges := s.edges ++
        [{ id := edgeId, source := source, target := target,
           sourceHandle := sourceHandle, targetHandle := targetHandle,
           etype := "custom",
           data := [("label", JVal.vstr ""), ("isDraft", JVal.vbool true),
                    ("isEditing", JVal.vbool true)],
           selected := false, hidden := false }] }, [])

/-- Synchronous part of `commitDraftNode`: guard on existence and the
draft flag, clear draft/editing state, then issue the single
`createNode` backend call. -/
def commitDraftNodeSync (s : StoreState) (nodeId label : String) :
    StoreState × List BackendCall :=
  match s.nodes.find? (fun n => n.id == nodeId) with
  | none => (s, [])
  | some n =>
    if !isDraftNode n then (s, [])
    else
      let commitData : DataMap → DataMap := fun d =>
        setProp (setProp (setProp (setProp d "label" (JVal.vstr label)) "name" (JVal.vstr label)) "isEditing" (JVal.vbool false)) "isDraft" (JVal.vbool false)
      ({ s with
          nodes := mapNodesById s.nodes nodeId (fun n =>
            { n with data := commitData n.data })
          isSyncing := true },
       [BackendCall.createNode label])

/-- Success resolution of `commitDraftNode`: swap the placeholder id for
the backend-assigned `newId` on the node (recording it in `_elementId`)
and rewrite every edge endpoint that referenced the placeholder. -/
def commitDraftNodeSuccess (s : StoreState) (nodeId newId : String) :
    StoreState :=
  { s with
    isSyncing := false
    nodes := mapNodesById s.nodes nodeId (fun n =>
      { n with id := newId,
               data := setProp n.data "_elementId" (JVal.vstr newId) })
    edges := s.edges.map (fun e =>
      { e with
        source := if e.source == nodeId then newId else e.source,
        target := if e.target == nodeId then newId else e.target }) }

/-- Failure resolution of `commitDraftNode`: remove the node from the UI
and record the sync error. -/
def commitDraftNodeFailure (s : StoreState) (nodeId msg : String) :
    StoreState :=
  { s with
    nodes := s.nodes.filter (fun n => !(n.id == nodeId)),
    isSyncing := false,
    syncError := some msg }

/-- `discardDraftNode`: remove the node only when it is still a draft;
never issues a backend call. -/
def discardDraftNode (s : StoreState) (nodeId : String) :
    StoreState × List BackendCall :=
  match s.nodes.find? (fun n => n.id == nodeId) with
  | none => (s, [])
  | some n =>
    if !isDraftNode n then (s, [])
    else ({ s with nodes := s.nodes.filter (fun n => !(n.id == nodeId)) }, [])

/-- Synchronous part of `commitDraftEdge`: if the edge exists, mark
syncing and issue `createEdge` with the trimmed label, defaulting an
empty trimmed label to `"LINK"`. -/
def commitDraftEdgeSync (s : StoreState) (edgeId label : String) :
    StoreState × List BackendCall :=
  match s.edges.find? (fun e => e.id == edgeId) with
  | none => (s, [])
  | some e =>
    ({ s with isSyncing := true, syncError := none },
     [BackendCall.createEdge edgeId e.source e.target
        (if jsTrim label == "" then "LINK" else jsTrim label)])

/-- `discardDraftEdge`: remove the edge from the store; no backend call. -/
def discardDraftEdge (s : StoreState) (edgeId : String) :
    StoreState × List BackendCall :=
  ({ s with edges := s.edges.filter (fun e => !(e.id == edgeId)) }, [])

/-- Synchronous part of `updateNodeLabel`: snapshot the previous
`label`/`name` fields, apply the new label optimistically, and issue
`updateNodeName`.  Returns (state, (originalLabel, originalName), calls). -/
def updateNodeLabelSync (s : StoreState) (id label : String) :
    StoreState × (JVal × JVal) × List BackendCall :=
  let originalLabel :=
    match s.nodes.find? (fun n => n.id == id) with
    | some n => getProp n.data "label"
    | none => JVal.vundef
  let originalName :=
    match s.nodes.find? (fun n => n.id == id) with
    | some n => getProp n.data "name"
    | none => JVal.vundef
  ({ s with
      nodes := mapNodesById s.nodes id (fun n =>
        { n with data := setProp (setProp n.data "label" (JVal.vstr label))
                           "name" (JVal.vstr label) })
      isSyncing := true },
   (originalLabel, originalName),
   [BackendCall.updateNodeName id label])

/-- Success resolution of `updateNodeLabel`. -/
def updateNodeLabelSuccess (s : StoreState) : StoreState :=
  { s with isSyncing := false }

/-- `originalLabel ?? label` — the JS nullish coalescing used by the
`updateNodeLabel` rollback (an absent snapshot falls back to the label
the failing call wrote). -/
def coalesceLabel (originalLabel : JVal) (label : String) : JVal :=
  match originalLabel with
  | JVal.vundef => JVal.vstr label
  | v => v

/-- Failure rollback of `updateNodeLabel`: restore
`label: originalLabel ?? label, name: originalName` on the node and
record the sync error.  The restore is unconditional. -/
def updateNodeLabelRollback (s : StoreState) (id label : String)
    (originalLabel originalName : JVal) (msg : String) : StoreState :=
  { s with
    nodes := mapNodesById s.nodes id (fun n =>
      { n with data := setProp (setProp n.data "label"
          (coalesceLabel originalLabel label)) "name" originalName })
    isSyncing := false
    syncError := some msg }

/-- Synchronous part of `updateNodeProperty`: snapshot the previous
value of the single key, apply the new value optimistically, and issue
the backend property update.  Returns (state, originalValue, calls). -/
def updateNodePropertySync (s : StoreState) (nodeId key : String)
    (value : JVal) : StoreState × JVal × List BackendCall :=
  let originalValue :=
    match s.nodes.find? (fun n => n.id == nodeId) with
    | some n => getProp n.data key
    | none => JVal.vundef
  ({ s with
      nodes := mapNodesById s.nodes nodeId (fun n =>
        { n with data := setProp n.data key value })
      isSyncing := true },
   originalValue,
   [BackendCall.updateNodeProperty nodeId key value])

/-- Success resolution of `updateNodeProperty`. -/
def updateNodePropertySuccess (s : StoreState) : StoreState :=
  { s with isSyncing := false }

/-- Failure rollback of `updateNodeProperty`: write the snapshotted
value back to that key, unconditionally (no check that the current value
is still the one this call wrote, and no sync-error field update). -/
def updateNodePropertyRollback (s : StoreState) (nodeId key : String)
    (originalValue : JVal) : StoreState :=
  { s with
    nodes := mapNodesById s.nodes nodeId (fun n =>
      { n with data := setProp n.data key originalValue })
    isSyncing := false }

/-- Synchronous part of `deleteSelectedFromDB`: optimistically drop the
selected nodes, the selected edges, and every edge touching a selected
node, then issue one backend delete per selected edge id and per
selected node id — with no draft filtering. -/
def deleteSelectedFromDBSync (s : StoreState) :
    StoreState × List BackendCall :=
  let selectedNodeIds := (s.nodes.filter (fun n => n.selected)).map (fun n => n.id)
  let selectedEdgeIds := (s.edges.filter (fun e => e.selected)).map (fun e => e.id)
  ({ s with
      nodes := s.nodes.filter (fun n => !n.selected)
      edges := s.edges.filter (fun e =>
        !e.selected && !(selectedNodeIds.contains e.source) &&
          !(selectedNodeIds.contains e.target))
      isSyncing := true
      isDeleteModalOpen := false },
   selectedEdgeIds.map BackendCall.deleteEdge ++
     selectedNodeIds.map BackendCall.deleteNode)

/-- Failure resolution of `deleteSelectedFromDB`: restore the original
node and edge collections captured before the optimistic removal. -/
def deleteSelectedFromDBFailure (s : StoreState)
    (originalNodes : List GNode) (originalEdges : List GEdge) : StoreState :=
  { s with nodes := originalNodes, edges := originalEdges,
           isSyncing := false,
           syncError := some "Some deletions failed to sync" }

/-- `removeSelectedFromUI` (V19 soft hide): set `hidden` on the selected
nodes and the selected edges; nothing is removed and no backend call is
made. -/
def removeSelectedFromUI (s : StoreState) : StoreState :=
  { s with
    nodes := s.nodes.map (fun n =>
      if n.selected then { n with hidden := true, selected := false } else n)
    edges := s.edges.map (fun e =>
      if e.selected then { e with hidden := true, selected := false } else e)
    isDeleteModalOpen := false }

/-- The optimistic update `flipEdge` maps over the edge list: swap
source/target and the two handles of the matching edge. -/
def flipEdgeFun (edgeId : String) (e : GEdge) : GEdge :=
  if e.id == edgeId then
    { e with source := e.target, target := e.source,
             sourceHandle := e.targetHandle, targetHandle := e.sourceHandle }
  else e

/-- Synchronous part of `flipEdge`: optimistically swap source/target
and the two handles of the matching edge, then issue the backend
reversal. -/
def flipEdgeSync (s : StoreState) (edgeId : String) :
    StoreState × List BackendCall :=
  match s.edges.find? (fun e => e.id == edgeId) with
  | none => (s, [])
  | some _ =>
    ({ s with edges := s.edges.map (flipEdgeFun edgeId) },
     [BackendCall.reverseRelationship edgeId])

/-! ## Adapter layer

Relationship reversal, label sanitization and the FalkorDB
authentication/query control flow, translated from `Neo4jAdapter` and
`FalkorDBAdapter`. -/

/-- A backend relationship as `Neo4jAdapter.reverseRelationship` reads
it in its transaction's first MATCH: the two endpoints' application
`id` properties (`a.id` / `b.id`; `none` is the SQL-null the query
returns when the node carries no such property, which is the case for
nodes created by the adapter's own `createNode`, which sets only
`name`), the relationship type, and the full property map. -/
structure BackendRel where
  srcAppId : Option String
  tgtAppId : Option String
  rtype : String
  props : DataMap
deriving Repr, DecidableEq

/-- `Neo4jAdapter.reverseRelationship` netted over its transaction:
read `a.id AS sourceId`, `b.id AS targetId`, the type and the property
map; delete the relationship; recreate it with
`MATCH (a ...id newSourceId...), (b ...id newTargetId...) CREATE ...`.
A Cypher map pattern whose value is null matches no node, so when
either endpoint lacks the application id the recreate MATCH yields no
rows, nothing is created, and the transaction still commits — the
relationship is deleted with no replacement (`none`).  When both ids
are present the MATCH finds the nodes just read and the recreated
relationship (`some`) has swapped endpoints, the same type and the
identical property map.  The second component is the
`(newSource, newTarget)` pair handed back to the caller. -/
def neo4jReverseRelationship (r : BackendRel) :
    Option BackendRel × Option String × Option String :=
  match r.srcAppId, r.tgtAppId with
  | some sid, some tid =>
    (some { r with srcAppId := some tid, tgtAppId := some sid },
     some tid, some sid)
  | _, _ => (none, r.tgtAppId, r.srcAppId)

/-- The single-quote character. -/
def quoteChar : Char := Char.ofNat 39

/-- The backslash character. -/
def backslashChar : Char := Char.ofNat 92

/-- The newline character. -/
def newlineChar : Char := Char.ofNat 10

/-- The carriage-return character. -/
def carriageChar : Char := Char.ofNat 13

/-- JS `String.prototype.replace` with a single-character global
pattern: every occurrence of `target` becomes the character sequence
`repl`. -/
def replaceChar : List Char → Char → List Char → List Char
  | [], _, _ => []
  | c :: rest, target, repl =>
    if c = target then repl ++ replaceChar rest target repl
    else c :: replaceChar rest target repl

/-- The quote-only escaping (replace each single quote by
backslash-quote) that `FalkorDBAdapter.reverseRelationship` — and its
`migrateRelationship`/`updateEdgeLabel` siblings — apply to string
property values before interpolating them into the CREATE query text.
Backslashes, newlines and carriage returns pass through unescaped. -/
def falkorQuoteEscape (s : String) : String :=
  String.mk (replaceChar s.data quoteChar [backslashChar, quoteChar])

/-- `escapeForCypher` from `FalkorDBAdapter.saveDashboard` (V36): the
adapter's own documented-correct escaping for string interpolation
into query text — backslashes first, then single quotes, then
newlines, then carriage returns, in that order, so no unescaped
sequence is re-introduced. -/
def escapeForCypher (s : String) : String :=
  let p1 := replaceChar s.data backslashChar [backslashChar, backslashChar]
  let p2 := replaceChar p1 quoteChar [backslashChar, quoteChar]
  let p3 := replaceChar p2 newlineChar [backslashChar, Char.ofNat 110]
  let p4 := replaceChar p3 carriageChar [backslashChar, Char.ofNat 114]
  String.mk p4

/-- `FalkorDBAdapter.reverseRelationship` endpoint bookkeeping: the
relationship is recreated between the internal node ids read in step 1
(`id(a)`, `id(b)`, always present), swapped — the CREATE matches
`id(a) = targetId` and `id(b) = sourceId`. -/
def falkorReverseEndpoints (sourceId targetId : Nat) : Nat × Nat :=
  (targetId, sourceId)

/-- The charset `[a-zA-Z0-9_]` admitted by the label sanitizer. -/
def isLabelChar (c : Char) : Bool := c.isAlphanum || c == '_'

/-- `label.replace(/[^a-zA-Z0-9_]/g, '_')`. -/
def sanitizeLabel (label : String) : String :=
  String.mk (label.data.map (fun c => if isLabelChar c then c else '_'))

/-- `Neo4jAdapter.addNodeLabel`: sanitize, throw when the sanitized
label is empty, otherwise send the sanitized label to the backend. -/
def neo4jAddNodeLabelCall (label : String) : Except String String :=
  if sanitizeLabel label == "" then
    Except.error "Invalid label: must contain alphanumeric characters"
  else Except.ok (sanitizeLabel label)

/-- `Neo4jAdapter.removeNodeLabel`: identical sanitize-then-send shape. -/
def neo4jRemoveNodeLabelCall (label : String) : Except String String :=
  if sanitizeLabel label == "" then
    Except.error "Invalid label: must contain alphanumeric characters"
  else Except.ok (sanitizeLabel label)

/-- `FalkorDBAdapter.addNodeLabel`: the query text sent to `runQuery`,
with the label interpolated verbatim (no validation). -/
def falkorAddNodeLabelQuery (nodeId label : String) : String :=
  "MATCH (n) WHERE id(n) = " ++ nodeId ++ " SET n:" ++ label

/-- `FalkorDBAdapter.removeNodeLabel`: verbatim interpolation as well. -/
def falkorRemoveNodeLabelQuery (nodeId label : String) : String :=
  "MATCH (n) WHERE id(n) = " ++ nodeId ++ " REMOVE n:" ++ label

/-- The token/config slice of `FalkorDBAdapter` state that
`ensureConnection` and `runQuery` consult. -/
structure FalkorConnState where
  accessToken : Option String
  currentConfig : Option String
deriving Repr, DecidableEq

/-- Outcome of one `FalkorDBAdapter.runQuery` invocation. -/
inductive QueryOutcome where
  | notConnected
  | authFailed (msg : String)
  | unauthorized
  | httpError (status : Nat)
  | success
deriving Repr, DecidableEq

/-- `ensureConnection` (lazy login): when no token is held but a
connection config is, perform exactly one login attempt; otherwise do
nothing.  Returns the updated state (or the login error) and the number
of login calls made. -/
def ensureConnection (st : FalkorConnState)
    (loginResult : Except String String) :
    Except String FalkorConnState × Nat :=
  match st.accessToken, st.currentConfig with
  | none, some _ =>
    (match loginResult with
     | Except.ok token => (Except.ok { st with accessToken := some token }, 1)
     | Except.error e => (Except.error e, 1))
  | _, _ => (Except.ok st, 0)

/-- `FalkorDBAdapter.runQuery` control flow: `ensureConnection`, then
fail fast without a token, then fetch; a 401 response throws
`Unauthorized: Token expired` with no re-login, any other non-2xx
status throws a query error.  `loginResult` and `fetchStatus` stand for
the backend's responses.  Returns the outcome and how many login calls
were made. -/
def falkorRunQuery (st : FalkorConnState)
    (loginResult : Except String String) (fetchStatus : Nat) :
    QueryOutcome × Nat :=
  match ensureConnection st loginResult with
  | (Except.error e, n) => (QueryOutcome.authFailed e, n)
  | (Except.ok st', n) =>
    match st'.accessToken with
    | none => (QueryOutcome.notConnected, n)
    | some _ =>
      if fetchStatus == 401 then (QueryOutcome.unauthorized, n)
      else if fetchStatus < 200 || 300 ≤ fetchStatus then
        (QueryOutcome.httpError fetchStatus, n)
      else (QueryOutcome.success, n)

/-! ## UI save handlers

The `handleSave` callbacks of `SmartEdge` and `RectangleNode` decide
between committing and discarding a draft from the trimmed input. -/

/-- The store action a `SmartEdge` save resolves to. -/
inductive EdgeSaveAction where
  | commitEdge (id label : String)
  | discardEdge (id : String)
  | updateLabelThenExit (id label : String)
  | exitEditOnly (id : String)
deriving Repr, DecidableEq

/-- `SmartEdge.handleSave`: a draft commits its non-empty trimmed value
and is discarded otherwise; an existing edge updates on non-empty input
and always leaves edit mode. -/
def smartEdgeHandleSave (isDraft : Bool) (id editValue : String) :
    EdgeSaveAction :=
  let trimmed := jsTrim editValue
  if isDraft then
    if trimmed ≠ "" then EdgeSaveAction.commitEdge id trimmed
    else EdgeSaveAction.discardEdge id
  else
    if trimmed ≠ "" then EdgeSaveAction.updateLabelThenExit id trimmed
    else EdgeSaveAction.exitEditOnly id

/-- The store action a `RectangleNode` save resolves to. -/
inductive NodeSaveAction where
  | commitNode (id label : String)
  | discardNode (id : String)
  | updateLabelThenExit (id label : String)
  | exitEditOnly (id : String)
deriving Repr, DecidableEq

/-- `RectangleNode.handleSave`: same commit-or-discard split for draft
nodes. -/
def rectangleNodeHandleSave (isDraft : Bool) (id editValue : String) :
    NodeSaveAction :=
  let trimmedValue := jsTrim editValue
  if isDraft then
    if trimmedValue ≠ "" then NodeSaveAction.commitNode id trimmedValue
    else NodeSaveAction.discardNode id
  else
    if trimmedValue ≠ "" then NodeSaveAction.updateLabelThenExit id trimmedValue
    else NodeSaveAction.exitEditOnly id

/-! ## Referential integrity -/

/-- A node with this id is present in the store. -/
def nodePresent (s : StoreState) (id : String) : Bool :=
  s.nodes.any (fun n => n.id == id)

/-- Every edge's `source` and `target` resolve to a node present in the
store (the no-dangling-edges invariant of §3/§8). -/
def noDangling (s : StoreState) : Bool :=
  s.edges.all (fun e => nodePresent s e.source && nodePresent s e.target)

/-- Observe one property of the node with a given id, the way the store
reads it (`find` by id, then index into `data`). -/
def nodeProp (s : StoreState) (nodeId key : String) : JVal :=
  match s.nodes.find? (fun n => n.id == nodeId) with
  | some n => getProp n.data key
  | none => JVal.vundef

/-! ## Sample states used by witnesses and counterexamples -/

/-- A draft node with the local placeholder id `"5"`. -/
def sampleDraftNode : GNode :=
  { id := "5", ntype := "rectangle", position := (100, 100),
    data := [("label", JVal.vstr ""), ("isEditing", JVal.vbool true),
             ("isDraft", JVal.vbool true)],
    selected := false, hidden := false }

/-- A persisted node `"n1"`. -/
def samplePlainNode : GNode :=
  { id := "n1", ntype := "rectangle", position := (0, 0),
    data := [("label", JVal.vstr "B"), ("name", JVal.vstr "B")],
    selected := false, hidden := false }

/-- An edge from the draft node to the persisted one. -/
def sampleEdge : GEdge :=
  { id := "e1", source := "5", target := "n1",
    sourceHandle := some "bottom-h", targetHandle := some "top-h",
    etype := "custom", data := [("label", JVal.vstr "knows")],
    selected := false, hidden := false }

/-- Store holding both nodes and the connecting edge. -/
def sampleDraftState : StoreState :=
  { nodes := [sampleDraftNode, samplePlainNode],
    edges := [sampleEdge],
    isSyncing := false, syncError := none, isDeleteModalOpen := false }

/-- A draft edge `"e9"` between two persisted nodes `"a"` and `"b"`. -/
def sampleDraftEdge : GEdge :=
  { id := "e9", source := "a", target := "b",
    sourceHandle := none, targetHandle := none, etype := "custom",
    data := [("label", JVal.vstr ""), ("isDraft", JVal.vbool true),
             ("isEditing", JVal.vbool true)],
    selected := false, hidden := false }

/-- Store holding the draft edge `"e9"` and its two endpoint nodes. -/
def sampleDraftEdgeState : StoreState :=
  { nodes :=
      [{ id := "a", ntype := "rectangle", position := (0, 0),
         data := [("name", JVal.vstr "A")], selected := false, hidden := false },
       { id := "b", ntype := "rectangle", position := (1, 1),
         data := [("name", JVal.vstr "B")], selected := false, hidden := false }],
    edges := [sampleDraftEdge],
    isSyncing := false, syncError := none, isDeleteModalOpen := false }

/-- A selected draft node, as when the user selects a draft on canvas
and confirms deletion. -/
def selectedDraftNode : GNode :=
  { id := "7", ntype := "rectangle", position := (10, 10),
    data := [("label", JVal.vstr ""), ("isEditing", JVal.vbool false),
             ("isDraft", JVal.vbool true)],
    selected := true, hidden := false }

/-- Store holding only the selected draft node. -/
def selectedDraftState : StoreState :=
  { nodes := [selectedDraftNode], edges := [],
    isSyncing := false, syncError := none, isDeleteModalOpen := true }

/-- Node `"a1"` carrying property `p = 1`. -/
def samplePropNode : GNode :=
  { id := "a1", ntype := "rectangle", position := (0, 0),
    data := [("p", JVal.vnum 1)], selected := false, hidden := false }

/-- Store holding only the property node `"a1"`. -/
def samplePropState : StoreState :=
  { nodes := [samplePropNode], edges := [],
    isSyncing := false, syncError := none, isDeleteModalOpen := false }

/-- The C3 interleaving: start `updateNodeProperty(A, p, 2)`, then —
before it resolves — `updateNodeProperty(A, q, 5)`; the second call
succeeds, after which the first call's failure rollback runs with the
snapshot that call captured. -/
def overlappingPropertyRun (s : StoreState) (nodeId : String) : StoreState :=
  let r1 := updateNodePropertySync s nodeId "p" (JVal.vnum 2)
  let r2 := updateNodePropertySync r1.1 nodeId "q" (JVal.vnum 5)
  updateNodePropertyRollback (updateNodePropertySuccess r2.1) nodeId "p" r1.2.1

/-- A backend relationship whose endpoints both carry application ids. -/
def sampleBackendRel : BackendRel :=
  { srcAppId := some "n1", tgtAppId := some "n2", rtype := "KNOWS",
    props := [("id", JVal.vstr "e1"), ("label", JVal.vstr "knows")] }

/-- A backend relationship whose source endpoint lacks the application
`id` property, as for nodes created by the adapter's own `createNode`. -/
def sampleNullIdRel : BackendRel :=
  { srcAppId := none, tgtAppId := some "n2", rtype := "KNOWS",
    props := [("id", JVal.vstr "e1")] }

@[simp] theorem getProp_setProp_self (d : DataMap) (k : String) (v : JVal) :
    getProp (setProp d k v) k = v := by
  induction d with
  | nil => simp [setProp, getProp, List.find?]
  | cons p rest ih =>
    rcases p with ⟨pk, pv⟩
    by_cases h : pk = k
    · subst h
      simp [setProp, getProp, List.find?]
    · have hpk : (pk == k) = false := beq_eq_false_iff_ne.mpr h
      simpa [setProp, getProp, List.find?, hpk] using ih

theorem getProp_setProp_ne (d : DataMap) (k k' : String) (v : JVal)
    (h : k' ≠ k) : getProp (setProp d k v) k' = getProp d k' := by
  have hkk' : (k == k') = false := beq_eq_false_iff_ne.mpr (Ne.symm h)
  induction d with
  | nil => simp [setProp, getProp, List.find?, hkk']
  | cons p rest ih =>
    rcases p with ⟨pk, pv⟩
    by_cases hp : pk = k
    · subst hp
      simp [setProp, getProp, List.find?, hkk']
    · have hpk : (pk == k) = false := beq_eq_false_iff_ne.mpr hp
      by_cases hp' : pk = k'
      · subst hp'
        simp [setProp, getProp, List.find?, hpk]
      · have hpk' : (pk == k') = false := beq_eq_false_iff_ne.mpr hp'
        simpa [setProp, getProp, List.find?, hpk, hpk'] using ih

@[simp] theorem length_mapNodesById (nodes : List GNode) (nodeId : String)
    (f : GNode → GNode) : (mapNodesById nodes nodeId f).length = nodes.length := by
  simp [mapNodesById]

theorem get_mapNodesById (nodes : List GNode) (nodeId : String)
    (f : GNode → GNode) (i : Nat) (hi : i < nodes.length) :
    (mapNodesById nodes nodeId f).get ⟨i, by simpa using hi⟩ =
      (if (nodes.get ⟨i, hi⟩).id == nodeId then f (nodes.get ⟨i, hi⟩)
       else nodes.get ⟨i, hi⟩) := by
  simp [mapNodesById]

/-! ## Shared lemmas about the per-entity patch pattern -/

theorem find?_mapNodesById (ns : List GNode) (nodeId : String)
    (f : GNode → GNode) (hf : ∀ n, (f n).id = n.id) :
    (mapNodesById ns nodeId f).find? (fun n => n.id == nodeId) =
      (ns.find? (fun n => n.id == nodeId)).map
        (fun n => if n.id == nodeId then f n else n) := by
  unfold mapNodesById
  rw [List.find?_map]
  have hpred : ((fun n : GNode => n.id == nodeId) ∘
      (fun n => if n.id == nodeId then f n else n)) =
      (fun n : GNode => n.id == nodeId) := by
    funext n
    by_cases h : (n.id == nodeId) = true
    · simp [Function.comp, h, hf]
    · simp [Function.comp, h]
  rw [hpred]

theorem find?_mapNodesById_ne (ns : List GNode) (nodeId otherId : String)
    (f : GNode → GNode) (hf : ∀ n, (f n).id = n.id)
    (h : otherId ≠ nodeId) :
    (mapNodesById ns nodeId f).find? (fun n => n.id == otherId) =
      ns.find? (fun n => n.id == otherId) := by
  unfold mapNodesById
  rw [List.find?_map]
  have hpred : ((fun n : GNode => n.id == otherId) ∘
      (fun n => if n.id == nodeId then f n else n)) =
      (fun n : GNode => n.id == otherId) := by
    funext n
    by_cases hn : (n.id == nodeId) = true
    · simp [Function.comp, hn, hf]
    · simp [Function.comp, hn]
  rw [hpred]
  cases hfind : ns.find? (fun n => n.id == otherId) with
  | none => rfl
  | some n =>
    have hn : (n.id == otherId) = true := by
      simpa using List.find?_some hfind
    have hne : (n.id == nodeId) = false := by
      have hid : n.id = otherId := by simpa using hn
      simp [hid, h]
    simp [hne]
    intro hid2
    rw [hid2] at hne
    simp at hne

theorem find?_mapNodesById_reassign (ns : List GNode)
    (nodeId otherId newId : String) (f : GNode → GNode)
    (hf : ∀ n, (f n).id = newId)
    (h1 : otherId ≠ nodeId) (h2 : otherId ≠ newId) :
    (mapNodesById ns nodeId f).find? (fun n => n.id == otherId) =
      ns.find? (fun n => n.id == otherId) := by
  unfold mapNodesById
  rw [List.find?_map]
  have hpred : ((fun n : GNode => n.id == otherId) ∘
      (fun n => if n.id == nodeId then f n else n)) =
      (fun n : GNode => n.id == otherId) := by
    funext n
    by_cases hn : (n.id == nodeId) = true
    · have hnew : ((f n).id == otherId) = false := by
        rw [hf n]
        exact beq_eq_false_iff_ne.mpr (Ne.symm h2)
      have hold : (n.id == otherId) = false := by
        have : n.id = nodeId := by simpa using hn
        rw [this]
        exact beq_eq_false_iff_ne.mpr (Ne.symm h1)
      simp [Function.comp, hn, hnew, hold]
    · simp [Function.comp, hn]
  rw [hpred]
  cases hfind : ns.find? (fun n => n.id == otherId) with
  | none => rfl
  | some n =>
    have hn : (n.id == otherId) = true := by
      simpa using List.find?_some hfind
    have hne : (n.id == nodeId) = false := by
      have hid : n.id = otherId := by simpa using hn
      simp [hid, h1]
    simp [hne]
    intro hid2
    rw [hid2] at hne
    simp at hne

theorem find?_map_flipEdgeFun (edges : List GEdge) (edgeId : String) :
    (edges.map (flipEdgeFun edgeId)).find? (fun e => e.id == edgeId) =
      (edges.find? (fun e => e.id == edgeId)).map (flipEdgeFun edgeId) := by
  rw [List.find?_map]
  have hpred : ((fun e : GEdge => e.id == edgeId) ∘ flipEdgeFun edgeId) =
      (fun e : GEdge => e.id == edgeId) := by
    funext e
    by_cases h : (e.id == edgeId) = true <;> simp [Function.comp, flipEdgeFun, h]
  rw [hpred]

theorem flipEdgeFun_involutive (edgeId : String) (e : GEdge) :
    flipEdgeFun edgeId (flipEdgeFun edgeId e) = e := by
  by_cases h : (e.id == edgeId) = true <;> simp [flipEdgeFun, h]

theorem map_flipEdgeFun_involutive (edges : List GEdge) (edgeId : String) :
    (edges.map (flipEdgeFun edgeId)).map (flipEdgeFun edgeId) = edges := by
  induction edges with
  | nil => rfl
  | cons e rest ih =>
    simp only [List.map_cons, flipEdgeFun_involutive, ih]

/-! ## Support lemmas for label sanitization -/

theorem sanitizeLabel_all (label : String) :
    (sanitizeLabel label).data.all isLabelChar = true := by
  show ((label.data.map (fun c => if isLabelChar c then c else '_')).all
    isLabelChar) = true
  rw [List.all_eq_true]
  intro c hc
  rw [List.mem_map] at hc
  obtain ⟨x, hx, rfl⟩ := hc
  by_cases h : isLabelChar x = true
  · simp [h]
  · simp only [h, if_false, Bool.false_eq_true]
    decide

theorem sanitizeLabel_eq_empty_iff (label : String) :
    sanitizeLabel label = "" ↔ label = "" := by
  constructor
  · intro h
    have hd : label.data.map (fun c => if isLabelChar c then c else '_') = [] :=
      congrArg String.data h
    have hnil : label.data = [] := List.map_eq_nil_iff.mp hd
    cases label with
    | mk d =>
      have hd' : d = [] := hnil
      subst hd'
      rfl
  · intro h
    subst h
    rfl

theorem string_data_append (a b : String) : (a ++ b).data = a.data ++ b.data :=
  rfl

theorem replaceChar_eq_self (l : List Char) (target : Char)
    (repl : List Char) (h : ∀ c ∈ l, c ≠ target) :
    replaceChar l target repl = l := by
  induction l with
  | nil => rfl
  | cons c rest ih =>
    have hc : c ≠ target := h c (by simp)
    have hrest := ih (fun x hx => h x (by simp [hx]))
    simp only [replaceChar]
    rw [if_neg hc, hrest]

theorem mem_replaceChar (l : List Char) (target : Char) (repl : List Char)
    (c : Char) (hc : c ∈ replaceChar l target repl) : c ∈ l ∨ c ∈ repl := by
  induction l with
  | nil => simp [replaceChar] at hc
  | cons d rest ih =>
    simp only [replaceChar] at hc
    by_cases hd : d = target
    · rw [if_pos hd] at hc
      rcases List.mem_append.mp hc with h1 | h2
      · right
        exact h1
      · rcases ih h2 with h3 | h4
        · left
          exact List.mem_cons_of_mem d h3
        · right
          exact h4
    · rw [if_neg hd] at hc
      rcases List.mem_cons.mp hc with h1 | h2
      · left
        simp [h1]
      · rcases ih h2 with h3 | h4
        · left
          exact List.mem_cons_of_mem d h3
        · right
          exact h4

/-! ## Claim theorems -/

/-- C4 counterexample: the backend round trip fails on the claim's
quantified inputs.  (a) A relationship whose source endpoint lacks the
application `id` property — true of nodes made by the adapter's own
`createNode`, which sets only `name` — is deleted by
`Neo4jAdapter.reverseRelationship` and never recreated (the recreate
MATCH on a null id yields no rows and the transaction commits), so one
reversal already loses the relationship and two cannot restore it.
(b) The FalkorDB reversal serializes property values with quote-only
escaping: the three-character payload `a`-backslash-`b` is emitted with
its backslash unescaped, differing from what the adapter's own correct
`escapeForCypher` produces, so an arbitrary property map is not
transmitted identically. -/
theorem reverseRelationshipNotPreserving :
    (neo4jReverseRelationship sampleNullIdRel).1 = none ∧
    (none : Option BackendRel) ≠ some sampleNullIdRel ∧
    falkorQuoteEscape
        (String.mk [Char.ofNat 97, backslashChar, Char.ofNat 98]) =
      String.mk [Char.ofNat 97, backslashChar, Char.ofNat 98] ∧
    escapeForCypher
        (String.mk [Char.ofNat 97, backslashChar, Char.ofNat 98]) =
      String.mk [Char.ofNat 97, backslashChar, backslashChar,
        Char.ofNat 98] ∧
    falkorQuoteEscape
        (String.mk [Char.ofNat 97, backslashChar, Char.ofNat 98]) ≠
      escapeForCypher
        (String.mk [Char.ofNat 97, backslashChar, Char.ofNat 98]) := by
  decide

/-- C4 amended: the round trip holds in the local store and, on the
backend, exactly on the inputs the adapters handle.  `flipEdge` applied
twice restores the store's edge list (endpoints, handles, property
map).  `Neo4jAdapter.reverseRelationship` recreates the relationship
with swapped endpoints, the same type and the identical property map —
and a second reversal restores the original — provided both endpoints
carry the application `id` property; when either lacks it, the
transaction commits with the relationship deleted and nothing
recreated.  The FalkorDB reversal swaps the internal endpoint ids
(restored by a second swap), but rebuilds the property map through
quote-only value escaping, which agrees with the adapter's own correct
`escapeForCypher` exactly when the value contains no backslash,
newline or carriage return — only such payloads are transmitted
identically. -/
theorem reverseEdgeRoundTripScoped (s : StoreState) (edgeId : String)
    (r : BackendRel) (sid tid : String)
    (hs : r.srcAppId = some sid) (ht : r.tgtAppId = some tid)
    (r2 : BackendRel) (hnull : r2.srcAppId = none ∨ r2.tgtAppId = none)
    (a b : Nat) (v : String)
    (hv : ∀ c ∈ v.data,
      c ≠ backslashChar ∧ c ≠ newlineChar ∧ c ≠ carriageChar) :
    ((flipEdgeSync (flipEdgeSync s edgeId).1 edgeId).1).edges = s.edges ∧
    (neo4jReverseRelationship r).1 =
      some { r with srcAppId := some tid, tgtAppId := some sid } ∧
    (neo4jReverseRelationship r).2 = (some tid, some sid) ∧
    ((neo4jReverseRelationship r).1.bind
      (fun x => (neo4jReverseRelationship x).1)) = some r ∧
    (neo4jReverseRelationship r2).1 = none ∧
    falkorReverseEndpoints (falkorReverseEndpoints a b).1
      (falkorReverseEndpoints a b).2 = (a, b) ∧
    falkorQuoteEscape v = escapeForCypher v := by
  obtain ⟨sa, ta, ty, pr⟩ := r
  have hs' : sa = some sid := hs
  have ht' : ta = some tid := ht
  subst hs'
  subst ht'
  refine ⟨?_, rfl, rfl, rfl, ?_, rfl, ?_⟩
  · cases hfind : s.edges.find? (fun e => e.id == edgeId) with
    | none =>
      simp [flipEdgeSync, hfind]
    | some e =>
      have h1 : flipEdgeSync s edgeId =
          ({ s with edges := s.edges.map (flipEdgeFun edgeId) },
           [BackendCall.reverseRelationship edgeId]) := by
        simp [flipEdgeSync, hfind]
      rw [h1]
      have hfind2 : (s.edges.map (flipEdgeFun edgeId)).find?
          (fun e => e.id == edgeId) = some (flipEdgeFun edgeId e) := by
        rw [find?_map_flipEdgeFun, hfind]
        rfl
      simp [flipEdgeSync, hfind2]
      rw [← List.map_map]
      exact map_flipEdgeFun_involutive s.edges edgeId
  · obtain ⟨sa2, ta2, ty2, pr2⟩ := r2
    rcases hnull with h2 | h2
    · have h2' : sa2 = none := h2
      subst h2'
      rfl
    · have h2' : ta2 = none := h2
      subst h2'
      cases sa2 <;> rfl
  · simp only [falkorQuoteEscape, escapeForCypher]
    have h1 : replaceChar v.data backslashChar
        [backslashChar, backslashChar] = v.data :=
      replaceChar_eq_self _ _ _ (fun c hc => (hv c hc).1)
    rw [h1]
    have hmem : ∀ c ∈ replaceChar v.data quoteChar
        [backslashChar, quoteChar],
        c ≠ newlineChar ∧ c ≠ carriageChar := by
      intro c hc
      rcases mem_replaceChar _ _ _ _ hc with h | h
      · exact ⟨(hv c h).2.1, (hv c h).2.2⟩
      · constructor
        · intro he
          rw [he] at h
          exact absurd h (by decide)
        · intro he
          rw [he] at h
          exact absurd h (by decide)
    have h3 : replaceChar (replaceChar v.data quoteChar
        [backslashChar, quoteChar]) newlineChar
        [backslashChar, Char.ofNat 110] =
        replaceChar v.data quoteChar [backslashChar, quoteChar] :=
      replaceChar_eq_self _ _ _ (fun c hc => (hmem c hc).1)
    rw [h3]
    have h4 : replaceChar (replaceChar v.data quoteChar
        [backslashChar, quoteChar]) carriageChar
        [backslashChar, Char.ofNat 114] =
        replaceChar v.data quoteChar [backslashChar, quoteChar] :=
      replaceChar_eq_self _ _ _ (fun c hc => (hmem c hc).2)
    rw [h4]

/-- C4 witness: on the concrete store and a relationship whose
endpoints both carry application ids, the local double flip restores
the edge list, the Neo4j reversal recreates with swapped app ids, and
the quote-only escaping agrees with `escapeForCypher` on the benign
payload `hello`. -/
theorem reverseEdgeRoundTripScoped_witness :
    ((flipEdgeSync (flipEdgeSync sampleDraftState "e1").1 "e1").1).edges =
      sampleDraftState.edges ∧
    (neo4jReverseRelationship sampleBackendRel).1 =
      some { sampleBackendRel with srcAppId := some "n2", tgtAppId := some "n1" } ∧
    ((neo4jReverseRelationship sampleBackendRel).1.bind
      (fun x => (neo4jReverseRelationship x).1)) = some sampleBackendRel ∧
    falkorQuoteEscape "hello" = escapeForCypher "hello" := by
  have h := reverseEdgeRoundTripScoped sampleDraftState "e1"
    sampleBackendRel "n1" "n2" (by decide) (by decide)
    sampleNullIdRel (Or.inl (by decide)) 3 7 "hello" (by decide)
  exact ⟨h.1, h.2.1, h.2.2.2.1, h.2.2.2.2.2.2⟩

/-- C8: `commitDraftNode` immediately followed by `discardDraftNode` on
the same id produces exactly one backend call, the create: the
synchronous part of the commit clears the draft flag before suspending,
so the discard finds a non-draft node, changes nothing, and issues no
delete or second create. -/
theorem commitThenDiscardSingleCall (s : StoreState) (nodeId label : String)
    (n : GNode) (hfind : s.nodes.find? (fun x => x.id == nodeId) = some n)
    (hdraft : isDraftNode n = true) :
    (commitDraftNodeSync s nodeId label).2 = [BackendCall.createNode label] ∧
    discardDraftNode (commitDraftNodeSync s nodeId label).1 nodeId =
      ((commitDraftNodeSync s nodeId label).1, []) := by
  have hnid : (n.id == nodeId) = true := by
    simpa using List.find?_some hfind
  have hc : commitDraftNodeSync s nodeId label =
      ({ s with
          nodes := mapNodesById s.nodes nodeId (fun m =>
            { m with data := setProp (setProp (setProp (setProp m.data "label" (JVal.vstr label)) "name" (JVal.vstr label)) "isEditing" (JVal.vbool false)) "isDraft" (JVal.vbool false) })
          isSyncing := true },
       [BackendCall.createNode label]) := by
    unfold commitDraftNodeSync
    rw [hfind]
    simp [hdraft]
  refine ⟨by rw [hc], ?_⟩
  rw [hc]
  have hfind2 := find?_mapNodesById s.nodes nodeId
    (fun m => { m with data := setProp (setProp (setProp (setProp m.data "label" (JVal.vstr label)) "name" (JVal.vstr label)) "isEditing" (JVal.vbool false)) "isDraft" (JVal.vbool false) })
    (fun m => rfl)
  rw [hfind] at hfind2
  have heq : n.id = nodeId := by simpa using hnid
  unfold discardDraftNode
  rw [hfind2]
  simp [heq, isDraftNode, JVal.truthy]

/-- Nodes with this id exist in the store (propositional form). -/
theorem nodePresent_iff (nodes : List GNode) (x : String) :
    nodes.any (fun n => n.id == x) = true ↔ ∃ n ∈ nodes, n.id = x := by
  rw [List.any_eq_true]
  constructor
  · rintro ⟨n, hn, hid⟩
    exact ⟨n, hn, by simpa using hid⟩
  · rintro ⟨n, hn, hid⟩
    exact ⟨n, hn, by simp [hid]⟩

/-- C1 counterexample: with the draft node `"7"` selected,
`deleteSelectedFromDB` issues a backend delete referencing the draft's
id — a backend CRUD call that is not the commit. -/
theorem draftDeleteSentToBackend :
    isDraftNode selectedDraftNode = true ∧
    selectedDraftNode.selected = true ∧
    (deleteSelectedFromDBSync selectedDraftState).2 =
      [BackendCall.deleteNode "7"] := by
  decide

/-- C1 amended: the draft lifecycle itself never contacts the backend —
creating a draft node or edge and discarding either issues no backend
call, and each commit issues at most its single create — but
`deleteSelectedFromDB` applies no draft filter: it issues a backend
delete for every selected node's and edge's id, draft or not. -/
theorem draftIsolationExceptSelectedDelete (s : StoreState) (ntype : String)
    (pos : Int × Int) (nodeId source target edgeId label : String)
    (sh th : Option String) :
    (addNode s ntype pos nodeId).2 = [] ∧
    (onConnect s source target sh th edgeId).2 = [] ∧
    (discardDraftNode s nodeId).2 = [] ∧
    (discardDraftEdge s edgeId).2 = [] ∧
    (commitDraftNodeSync s nodeId label).2.length ≤ 1 ∧
    (commitDraftEdgeSync s edgeId label).2.length ≤ 1 ∧
    (∀ n ∈ s.nodes, n.selected = true →
       BackendCall.deleteNode n.id ∈ (deleteSelectedFromDBSync s).2) ∧
    (∀ e ∈ s.edges, e.selected = true →
       BackendCall.deleteEdge e.id ∈ (deleteSelectedFromDBSync s).2) := by
  refine ⟨rfl, ?_, ?_, rfl, ?_, ?_, ?_, ?_⟩
  · unfold onConnect
    split <;> rfl
  · unfold discardDraftNode
    split
    · rfl
    · split <;> rfl
  · unfold commitDraftNodeSync
    split
    · simp
    · split <;> simp
  · unfold commitDraftEdgeSync
    split
    · simp
    · simp
  · intro n hn hsel
    simp only [deleteSelectedFromDBSync]
    apply List.mem_append_right
    rw [List.mem_map]
    refine ⟨n.id, ?_, rfl⟩
    rw [List.mem_map]
    refine ⟨n, ?_, rfl⟩
    rw [List.mem_filter]
    exact ⟨hn, hsel⟩
  · intro e he hsel
    simp only [deleteSelectedFromDBSync]
    apply List.mem_append_left
    rw [List.mem_map]
    refine ⟨e.id, ?_, rfl⟩
    rw [List.mem_map]
    refine ⟨e, ?_, rfl⟩
    rw [List.mem_filter]
    exact ⟨he, hsel⟩

/-- C1 witness: instantiated on the store holding the selected draft
node `"7"` — draft creation/discard make no call, yet the selected
delete issues `deleteNode "7"`. -/
theorem draftIsolationExceptSelectedDelete_witness :
    (addNode selectedDraftState "rectangle" (0, 0) "9").2 = [] ∧
    (discardDraftNode selectedDraftState "7").2 = [] ∧
    BackendCall.deleteNode "7" ∈ (deleteSelectedFromDBSync selectedDraftState).2 := by
  have h := draftIsolationExceptSelectedDelete selectedDraftState "rectangle"
    (0, 0) "7" "a" "b" "e9" "L" none none
  refine ⟨?_, h.2.2.1, ?_⟩
  · exact (draftIsolationExceptSelectedDelete selectedDraftState "rectangle"
      (0, 0) "9" "a" "b" "e9" "L" none none).1
  · exact h.2.2.2.2.2.2.1 selectedDraftNode (by decide) (by decide)

/-- C10 counterexample: discarding the draft node `"5"` removes the node
but not the edge `"e1"` whose source references it — the edge stays in
the store and dangles. -/
theorem discardDraftNodeLeavesDanglingEdge :
    noDangling sampleDraftState = true ∧
    (discardDraftNode sampleDraftState "5").1.edges = [sampleEdge] ∧
    noDangling (discardDraftNode sampleDraftState "5").1 = false := by
  decide

/-- C10 amended: `deleteSelectedFromDB` preserves referential integrity
— it removes every edge touching a removed node — and
`removeSelectedFromUI` only hides entities (nodes stay present), so both
preserve the no-dangling invariant; `discardDraftNode`, by contrast,
removes the node without touching its incident edges (the
counterexample), so the invariant does not hold over all
create/delete sequences. -/
theorem deleteOpsPreserveNoDangling (s : StoreState)
    (h : noDangling s = true) :
    noDangling (deleteSelectedFromDBSync s).1 = true ∧
    noDangling (removeSelectedFromUI s) = true := by
  have hmem : ∀ e ∈ s.edges,
      nodePresent s e.source = true ∧ nodePresent s e.target = true := by
    intro e he
    have hx := (List.all_eq_true.mp h) e he
    rw [Bool.and_eq_true] at hx
    exact hx
  constructor
  · rw [noDangling, List.all_eq_true]
    intro e he
    simp only [deleteSelectedFromDBSync] at he
    rw [List.mem_filter] at he
    obtain ⟨heS, hq⟩ := he
    rw [Bool.and_eq_true, Bool.and_eq_true] at hq
    obtain ⟨⟨_, hsrc⟩, htgt⟩ := hq
    rw [Bool.not_eq_true'] at hsrc htgt
    rw [Bool.and_eq_true]
    obtain ⟨hps, hpt⟩ := hmem e heS
    constructor
    · rw [nodePresent] at hps ⊢
      rw [nodePresent_iff] at hps
      obtain ⟨n, hn, hid⟩ := hps
      simp only [deleteSelectedFromDBSync, nodePresent_iff]
      refine ⟨n, ?_, hid⟩
      rw [List.mem_filter]
      refine ⟨hn, ?_⟩
      rw [Bool.not_eq_true']
      by_cases hns : n.selected = true
      · exfalso
        have hmem2 : e.source ∈
            (s.nodes.filter (fun n => n.selected)).map (fun n => n.id) := by
          rw [List.mem_map]
          exact ⟨n, List.mem_filter.mpr ⟨hn, hns⟩, hid⟩
        rw [← List.elem_iff] at hmem2
        have hsrc' : List.elem e.source
            ((s.nodes.filter (fun n => n.selected)).map (fun n => n.id)) =
            false := hsrc
        rw [hmem2] at hsrc'
        exact absurd hsrc' (by decide)
      · cases hb : n.selected
        · rfl
        · exact absurd hb hns
    · rw [nodePresent] at hpt ⊢
      rw [nodePresent_iff] at hpt
      obtain ⟨n, hn, hid⟩ := hpt
      simp only [deleteSelectedFromDBSync, nodePresent_iff]
      refine ⟨n, ?_, hid⟩
      rw [List.mem_filter]
      refine ⟨hn, ?_⟩
      rw [Bool.not_eq_true']
      by_cases hns : n.selected = true
      · exfalso
        have hmem2 : e.target ∈
            (s.nodes.filter (fun n => n.selected)).map (fun n => n.id) := by
          rw [List.mem_map]
          exact ⟨n, List.mem_filter.mpr ⟨hn, hns⟩, hid⟩
        rw [← List.elem_iff] at hmem2
        have htgt' : List.elem e.target
            ((s.nodes.filter (fun n => n.selected)).map (fun n => n.id)) =
            false := htgt
        rw [hmem2] at htgt'
        exact absurd htgt' (by decide)
      · cases hb : n.selected
        · rfl
        · exact absurd hb hns
  · rw [noDangling, List.all_eq_true]
    intro e1 he1
    simp only [removeSelectedFromUI] at he1
    rw [List.mem_map] at he1
    obtain ⟨e, heS, rfl⟩ := he1
    have hsrc : (if e.selected then
        { e with hidden := true, selected := false } else e).source = e.source := by
      by_cases hb : e.selected <;> simp [hb]
    have htgt : (if e.selected then
        { e with hidden := true, selected := false } else e).target = e.target := by
      by_cases hb : e.selected <;> simp [hb]
    have hpres : ∀ x : String,
        ((s.nodes.map (fun n => if n.selected then
            { n with hidden := true, selected := false } else n)).any
          (fun n => n.id == x)) = s.nodes.any (fun n => n.id == x) := by
      intro x
      rw [List.any_map]
      congr 1
      funext n
      by_cases hb : n.selected <;> simp [Function.comp, hb]
    rw [Bool.and_eq_true]
    obtain ⟨hps, hpt⟩ := hmem e heS
    constructor
    · show ((removeSelectedFromUI s).nodes.any (fun n => n.id == _)) = true
      simp only [removeSelectedFromUI]
      rw [hsrc, hpres]
      exact hps
    · show ((removeSelectedFromUI s).nodes.any (fun n => n.id == _)) = true
      simp only [removeSelectedFromUI]
      rw [htgt, hpres]
      exact hpt

/-- C10 witness: on a concrete no-dangling store with a selected node
and its edge, both delete modes preserve the invariant. -/
theorem deleteOpsPreserveNoDangling_witness :
    noDangling (deleteSelectedFromDBSync selectedDraftState).1 = true ∧
    noDangling (removeSelectedFromUI selectedDraftState) = true :=
  deleteOpsPreserveNoDangling selectedDraftState (by decide)

/-- C5 counterexample: `commitDraftEdge` invoked on a draft edge with a
label whose trimmed form is empty does issue the backend create call —
it defaults the label to `"LINK"` instead of discarding the draft. -/
theorem commitDraftEdgeEmptyLabelCreates :
    isDraftEdge sampleDraftEdge = true ∧
    jsTrim "   " = "" ∧
    (commitDraftEdgeSync sampleDraftEdgeState "e9" "   ").2 =
      [BackendCall.createEdge "e9" "a" "b" "LINK"] := by
  decide

/-- C5 amended: the discard-on-empty decision lives in the UI save
handlers — for a draft whose trimmed input is empty, `SmartEdge` and
`RectangleNode` invoke discard and never commit — while the store's
`commitDraftEdge`, handed a label with empty trim, defaults the label
to `"LINK"` and still issues the backend create call. -/
theorem emptyLabelDiscardAtUiLayer (id editValue : String)
    (s : StoreState) (edgeId label : String) (e : GEdge)
    (hfind : s.edges.find? (fun x => x.id == edgeId) = some e)
    (hempty : jsTrim label = "")
    (hv : jsTrim editValue = "") :
    smartEdgeHandleSave true id editValue = EdgeSaveAction.discardEdge id ∧
    rectangleNodeHandleSave true id editValue = NodeSaveAction.discardNode id ∧
    (commitDraftEdgeSync s edgeId label).2 =
      [BackendCall.createEdge edgeId e.source e.target "LINK"] := by
  refine ⟨?_, ?_, ?_⟩
  · simp [smartEdgeHandleSave, hv]
  · simp [rectangleNodeHandleSave, hv]
  · unfold commitDraftEdgeSync
    rw [hfind]
    simp [hempty]

/-- C5 witness: on the concrete draft edge `"e9"` with blank input, both
UI handlers discard, and the store-level commit still creates with the
default label. -/
theorem emptyLabelDiscardAtUiLayer_witness :
    smartEdgeHandleSave true "e9" " " = EdgeSaveAction.discardEdge "e9" ∧
    rectangleNodeHandleSave true "e9" " " = NodeSaveAction.discardNode "e9" ∧
    (commitDraftEdgeSync sampleDraftEdgeState "e9" " ").2 =
      [BackendCall.createEdge "e9" "a" "b" "LINK"] :=
  emptyLabelDiscardAtUiLayer "e9" " " sampleDraftEdgeState "e9" " "
    sampleDraftEdge (by decide) (by decide) (by decide)

/-- C2 counterexample: two overlapping `updateNodeProperty` calls on the
same key `p` of node `"a1"` (`1 → 2`, then `2 → 3`); the second call
succeeds, then the first call's failure rollback runs.  At rollback time
the current value `3` differs from the `2` the failing call wrote, yet
the restore applies anyway and clobbers the later successful write back
to `1`. -/
theorem rollbackClobbersLaterWrite :
    nodeProp (updateNodePropertySuccess
        (updateNodePropertySync
          (updateNodePropertySync samplePropState "a1" "p" (JVal.vnum 2)).1
          "a1" "p" (JVal.vnum 3)).1) "a1" "p" = JVal.vnum 3 ∧
    JVal.vnum 3 ≠ JVal.vnum 2 ∧
    nodeProp
      (updateNodePropertyRollback
        (updateNodePropertySuccess
          (updateNodePropertySync
            (updateNodePropertySync samplePropState "a1" "p" (JVal.vnum 2)).1
            "a1" "p" (JVal.vnum 3)).1)
        "a1" "p"
        (updateNodePropertySync samplePropState "a1" "p" (JVal.vnum 2)).2.1)
      "a1" "p" = JVal.vnum 1 := by
  decide

/-- C2 amended: each failing call's rollback touches only the fields it
snapshotted — `updateNodeProperty` restores exactly its one key and
`updateNodeLabel` exactly `label`/`name`, leaving every other data key,
every other node field, every other node, and the edges unchanged — but
the restore is applied unconditionally: it never compares the current
value with the value the failing call wrote, so a late rollback can
overwrite a later successful write to the same field. -/
theorem rollbackRestoresOnlySnapshottedFields (s : StoreState)
    (nodeId key : String) (orig : JVal) (lbl : String)
    (origLabel origName : JVal) (msg : String)
    (i : Nat) (hi : i < s.nodes.length)
    (hiP : i < (updateNodePropertyRollback s nodeId key orig).nodes.length)
    (hiL : i < (updateNodeLabelRollback s nodeId lbl origLabel
        origName msg).nodes.length)
    (hmatch : (s.nodes.get ⟨i, hi⟩).id = nodeId)
    (otherId : String) (hother : otherId ≠ nodeId)
    (k : String) (hk : k ≠ key)
    (k2 : String) (hk2a : k2 ≠ "label") (hk2b : k2 ≠ "name") :
    (updateNodePropertyRollback s nodeId key orig).edges = s.edges ∧
    (updateNodeLabelRollback s nodeId lbl origLabel origName msg).edges =
      s.edges ∧
    getProp ((updateNodePropertyRollback s nodeId key orig).nodes.get
      ⟨i, hiP⟩).data key = orig ∧
    getProp ((updateNodePropertyRollback s nodeId key orig).nodes.get
      ⟨i, hiP⟩).data k = getProp (s.nodes.get ⟨i, hi⟩).data k ∧
    ((updateNodePropertyRollback s nodeId key orig).nodes.get ⟨i, hiP⟩).id =
      (s.nodes.get ⟨i, hi⟩).id ∧
    ((updateNodePropertyRollback s nodeId key orig).nodes.get
      ⟨i, hiP⟩).position = (s.nodes.get ⟨i, hi⟩).position ∧
    ((updateNodePropertyRollback s nodeId key orig).nodes.get
      ⟨i, hiP⟩).selected = (s.nodes.get ⟨i, hi⟩).selected ∧
    ((updateNodePropertyRollback s nodeId key orig).nodes.get
      ⟨i, hiP⟩).hidden = (s.nodes.get ⟨i, hi⟩).hidden ∧
    (updateNodePropertyRollback s nodeId key orig).nodes.find?
      (fun n => n.id == otherId) = s.nodes.find? (fun n => n.id == otherId) ∧
    getProp ((updateNodeLabelRollback s nodeId lbl origLabel origName
      msg).nodes.get ⟨i, hiL⟩).data "name" = origName ∧
    getProp ((updateNodeLabelRollback s nodeId lbl origLabel origName
      msg).nodes.get ⟨i, hiL⟩).data k2 =
      getProp (s.nodes.get ⟨i, hi⟩).data k2 ∧
    (updateNodeLabelRollback s nodeId lbl origLabel origName msg).nodes.find?
      (fun n => n.id == otherId) = s.nodes.find? (fun n => n.id == otherId) := by
  have hbeq : ((s.nodes.get ⟨i, hi⟩).id == nodeId) = true :=
    beq_iff_eq.mpr hmatch
  have hgetP : (updateNodePropertyRollback s nodeId key orig).nodes.get
      ⟨i, hiP⟩ =
      { s.nodes.get ⟨i, hi⟩ with
        data := setProp (s.nodes.get ⟨i, hi⟩).data key orig } := by
    have h := get_mapNodesById s.nodes nodeId
      (fun n => { n with data := setProp n.data key orig }) i hi
    simp only [updateNodePropertyRollback]
    rw [h, hbeq]
    simp
  have hgetL : (updateNodeLabelRollback s nodeId lbl origLabel origName
      msg).nodes.get ⟨i, hiL⟩ =
      { s.nodes.get ⟨i, hi⟩ with
        data := setProp (setProp (s.nodes.get ⟨i, hi⟩).data "label"
          (coalesceLabel origLabel lbl)) "name" origName } := by
    have h := get_mapNodesById s.nodes nodeId
      (fun n => { n with data := setProp (setProp n.data "label"
        (coalesceLabel origLabel lbl)) "name" origName }) i hi
    simp only [updateNodeLabelRollback]
    rw [h, hbeq]
    simp
  refine ⟨rfl, rfl, ?_, ?_, ?_, ?_, ?_, ?_, ?_, ?_, ?_, ?_⟩
  · rw [hgetP]
    exact getProp_setProp_self _ _ _
  · rw [hgetP]
    exact getProp_setProp_ne _ _ _ _ hk
  · rw [hgetP]
  · rw [hgetP]
  · rw [hgetP]
  · rw [hgetP]
  · exact find?_mapNodesById_ne s.nodes nodeId otherId _ (fun n => rfl) hother
  · rw [hgetL]
    exact getProp_setProp_self _ _ _
  · rw [hgetL]
    rw [getProp_setProp_ne _ _ _ _ hk2b]
    exact getProp_setProp_ne _ _ _ _ hk2a
  · exact find?_mapNodesById_ne s.nodes nodeId otherId _ (fun n => rfl) hother

/-- C2 witness: on the concrete node `"a1"`, the property rollback
writes the snapshot back to `p` unconditionally and leaves key `"q"`
untouched. -/
theorem rollbackRestoresOnlySnapshottedFields_witness :
    getProp ((updateNodePropertyRollback samplePropState "a1" "p"
      (JVal.vnum 9)).nodes.get ⟨0, by decide⟩).data "p" = JVal.vnum 9 ∧
    getProp ((updateNodePropertyRollback samplePropState "a1" "p"
      (JVal.vnum 9)).nodes.get ⟨0, by decide⟩).data "q" =
      getProp (samplePropState.nodes.get ⟨0, by decide⟩).data "q" := by
  have h := rollbackRestoresOnlySnapshottedFields samplePropState "a1" "p"
    (JVal.vnum 9) "X" (JVal.vstr "old") (JVal.vstr "oldName") "boom"
    0 (by decide) (by decide) (by decide) (by decide) "zz" (by decide)
    "q" (by decide) "q" (by decide) (by decide)
  exact ⟨h.2.2.1, h.2.2.2.1⟩

/-- Reading a property through `nodeProp` after a successful `find`. -/
theorem nodeProp_of_find? (s : StoreState) (nodeId key : String) (n : GNode)
    (h : s.nodes.find? (fun x => x.id == nodeId) = some n) :
    nodeProp s nodeId key = getProp n.data key := by
  rw [nodeProp, h]

/-- C3: with node `A` holding `p = 1`, the overlapping updates
`p := 2` (fails late) and `q := 5` (succeeds) leave the store with
`A.p = 1` and `A.q = 5`: the failing call's rollback restores only the
key it snapshotted, leaving every other key of `A`, every other node,
and the edges unchanged. -/
theorem rollbackPrecisionDistinctKeys (s : StoreState) (nodeId : String)
    (nA : GNode)
    (hfind : s.nodes.find? (fun n => n.id == nodeId) = some nA)
    (hp : getProp nA.data "p" = JVal.vnum 1)
    (otherId : String) (hother : otherId ≠ nodeId)
    (k : String) (hkp : k ≠ "p") (hkq : k ≠ "q") :
    nodeProp (overlappingPropertyRun s nodeId) nodeId "p" = JVal.vnum 1 ∧
    nodeProp (overlappingPropertyRun s nodeId) nodeId "q" = JVal.vnum 5 ∧
    nodeProp (overlappingPropertyRun s nodeId) nodeId k =
      nodeProp s nodeId k ∧
    (overlappingPropertyRun s nodeId).nodes.find?
      (fun n => n.id == otherId) = s.nodes.find? (fun n => n.id == otherId) ∧
    (overlappingPropertyRun s nodeId).edges = s.edges := by
  have hb : (nA.id == nodeId) = true := by
    simpa using List.find?_some hfind
  have heqA : nA.id = nodeId := by simpa using hb
  have hsnap : (updateNodePropertySync s nodeId "p" (JVal.vnum 2)).2.1 =
      JVal.vnum 1 := by
    show (match s.nodes.find? (fun n => n.id == nodeId) with
          | some n => getProp n.data "p"
          | none => JVal.vundef) = JVal.vnum 1
    rw [hfind]
    exact hp
  have hnodes : (overlappingPropertyRun s nodeId).nodes =
      mapNodesById (mapNodesById (mapNodesById s.nodes nodeId
        (fun n => { n with data := setProp n.data "p" (JVal.vnum 2) })) nodeId
        (fun n => { n with data := setProp n.data "q" (JVal.vnum 5) })) nodeId
        (fun n => { n with data := setProp n.data "p" (updateNodePropertySync s nodeId "p" (JVal.vnum 2)).2.1 }) := rfl
  have hf1 : (mapNodesById s.nodes nodeId
      (fun n => { n with data := setProp n.data "p" (JVal.vnum 2) })).find?
      (fun n => n.id == nodeId) =
      some { nA with data := setProp nA.data "p" (JVal.vnum 2) } := by
    rw [find?_mapNodesById s.nodes nodeId
      (fun n => { n with data := setProp n.data "p" (JVal.vnum 2) })
      (fun n => rfl), hfind]
    simp [heqA]
  have hf2 : (mapNodesById (mapNodesById s.nodes nodeId
      (fun n => { n with data := setProp n.data "p" (JVal.vnum 2) })) nodeId
      (fun n => { n with data := setProp n.data "q" (JVal.vnum 5) })).find?
      (fun n => n.id == nodeId) =
      some { nA with data := setProp (setProp nA.data "p" (JVal.vnum 2)) "q" (JVal.vnum 5) } := by
    rw [find?_mapNodesById _ nodeId
      (fun n => { n with data := setProp n.data "q" (JVal.vnum 5) })
      (fun n => rfl), hf1]
    simp [heqA]
  have hf3 : (overlappingPropertyRun s nodeId).nodes.find?
      (fun n => n.id == nodeId) =
      some { nA with data := setProp (setProp (setProp nA.data "p" (JVal.vnum 2)) "q" (JVal.vnum 5)) "p" (JVal.vnum 1) } := by
    rw [hnodes]
    rw [find?_mapNodesById _ nodeId
      (fun n => { n with data := setProp n.data "p" (updateNodePropertySync s nodeId "p" (JVal.vnum 2)).2.1 })
      (fun n => rfl), hf2]
    simp [heqA, hsnap]
  have hq_ne_p : ("q" : String) ≠ "p" := by decide
  refine ⟨?_, ?_, ?_, ?_, rfl⟩
  · rw [nodeProp_of_find? _ _ _ _ hf3]
    exact getProp_setProp_self _ _ _
  · rw [nodeProp_of_find? _ _ _ _ hf3]
    rw [getProp_setProp_ne _ _ _ _ hq_ne_p]
    exact getProp_setProp_self _ _ _
  · rw [nodeProp_of_find? _ _ _ _ hf3, nodeProp_of_find? _ _ _ _ hfind]
    rw [getProp_setProp_ne _ _ _ _ hkp, getProp_setProp_ne _ _ _ _ hkq,
      getProp_setProp_ne _ _ _ _ hkp]
  · rw [hnodes]
    rw [find?_mapNodesById_ne _ nodeId otherId
      (fun n => { n with data := setProp n.data "p" (updateNodePropertySync s nodeId "p" (JVal.vnum 2)).2.1 })
      (fun n => rfl) hother]
    rw [find?_mapNodesById_ne _ nodeId otherId
      (fun n => { n with data := setProp n.data "q" (JVal.vnum 5) })
      (fun n => rfl) hother]
    rw [find?_mapNodesById_ne _ nodeId otherId
      (fun n => { n with data := setProp n.data "p" (JVal.vnum 2) })
      (fun n => rfl) hother]

/-- C3 witness: on the concrete store whose node `"a1"` has `p = 1`,
the interleaving ends with `p = 1` and `q = 5`. -/
theorem rollbackPrecisionDistinctKeys_witness :
    nodeProp (overlappingPropertyRun samplePropState "a1") "a1" "p" =
      JVal.vnum 1 ∧
    nodeProp (overlappingPropertyRun samplePropState "a1") "a1" "q" =
      JVal.vnum 5 := by
  have h := rollbackPrecisionDistinctKeys samplePropState "a1" samplePropNode
    (by decide) (by decide) "zz" (by decide) "r" (by decide) (by decide)
  exact ⟨h.1, h.2.1⟩

/-- C6 counterexample: the label `"Bad-Label"` contains `'-'`, outside
the alphanumeric/underscore charset, yet the Neo4j adapter does not
reject it (it sends the silently mangled `"Bad_Label"`), and the
FalkorDB adapter interpolates it verbatim, so query text containing the
invalid character does reach the backend. -/
theorem labelCharsetNotRejected :
    isLabelChar '-' = false ∧
    neo4jAddNodeLabelCall "Bad-Label" = Except.ok "Bad_Label" ∧
    neo4jRemoveNodeLabelCall "Bad-Label" = Except.ok "Bad_Label" ∧
    (falkorAddNodeLabelQuery "1" "Bad-Label").data.contains '-' = true ∧
    (falkorRemoveNodeLabelQuery "1" "Bad-Label").data.contains '-' = true :=
  ⟨by decide, rfl, rfl, by decide, by decide⟩

/-- C6 amended: the Neo4j adapter sanitizes instead of rejecting — every
character outside `[a-zA-Z0-9_]` is replaced by `'_'`, so the label sent
to the backend always lies in the charset, and the call errors exactly
on the empty label; the FalkorDB adapter performs no validation and
interpolates the given label verbatim into the query text, for both
`addNodeLabel` and `removeNodeLabel`. -/
theorem labelSanitizationBehavior (label nodeId : String) :
    ((sanitizeLabel label).data.all isLabelChar = true) ∧
    (∀ out, neo4jAddNodeLabelCall label = Except.ok out →
        out.data.all isLabelChar = true) ∧
    (neo4jAddNodeLabelCall label =
        Except.error "Invalid label: must contain alphanumeric characters" ↔
      label = "") ∧
    (∀ out, neo4jRemoveNodeLabelCall label = Except.ok out →
        out = sanitizeLabel label) ∧
    (neo4jRemoveNodeLabelCall label =
        Except.error "Invalid label: must contain alphanumeric characters" ↔
      label = "") ∧
    (∀ c ∈ label.data, c ∈ (falkorAddNodeLabelQuery nodeId label).data) ∧
    (∀ c ∈ label.data, c ∈ (falkorRemoveNodeLabelQuery nodeId label).data) := by
  refine ⟨sanitizeLabel_all label, ?_, ?_, ?_, ?_, ?_, ?_⟩
  · intro out hout
    by_cases hs : sanitizeLabel label = ""
    · have hb : (sanitizeLabel label == "") = true := beq_iff_eq.mpr hs
      unfold neo4jAddNodeLabelCall at hout
      rw [hb] at hout
      simp at hout
    · have hb : (sanitizeLabel label == "") = false := beq_eq_false_iff_ne.mpr hs
      unfold neo4jAddNodeLabelCall at hout
      rw [hb] at hout
      simp at hout
      rw [← hout]
      exact sanitizeLabel_all label
  · constructor
    · intro h
      by_cases hs : sanitizeLabel label = ""
      · exact (sanitizeLabel_eq_empty_iff label).mp hs
      · exfalso
        have hb : (sanitizeLabel label == "") = false := beq_eq_false_iff_ne.mpr hs
        unfold neo4jAddNodeLabelCall at h
        rw [hb] at h
        simp at h
    · intro h
      subst h
      rfl
  · intro out hout
    by_cases hs : sanitizeLabel label = ""
    · have hb : (sanitizeLabel label == "") = true := beq_iff_eq.mpr hs
      unfold neo4jRemoveNodeLabelCall at hout
      rw [hb] at hout
      simp at hout
    · have hb : (sanitizeLabel label == "") = false := beq_eq_false_iff_ne.mpr hs
      unfold neo4jRemoveNodeLabelCall at hout
      rw [hb] at hout
      simp at hout
      exact hout.symm
  · constructor
    · intro h
      by_cases hs : sanitizeLabel label = ""
      · exact (sanitizeLabel_eq_empty_iff label).mp hs
      · exfalso
        have hb : (sanitizeLabel label == "") = false := beq_eq_false_iff_ne.mpr hs
        unfold neo4jRemoveNodeLabelCall at h
        rw [hb] at h
        simp at h
    · intro h
      subst h
      rfl
  · intro c hc
    have hdata : (falkorAddNodeLabelQuery nodeId label).data =
        ("MATCH (n) WHERE id(n) = " ++ nodeId ++ " SET n:").data ++
          label.data := string_data_append _ _
    rw [hdata]
    exact List.mem_append_right _ hc
  · intro c hc
    have hdata : (falkorRemoveNodeLabelQuery nodeId label).data =
        ("MATCH (n) WHERE id(n) = " ++ nodeId ++ " REMOVE n:").data ++
          label.data := string_data_append _ _
    rw [hdata]
    exact List.mem_append_right _ hc

/-- C6 witness: for the concrete label `"My Label"` the sanitized form
stays in the charset, and its chars (here `'y'`) appear verbatim in the
FalkorDB query text. -/
theorem labelSanitizationBehavior_witness :
    (sanitizeLabel "My Label").data.all isLabelChar = true ∧
    'y' ∈ (falkorAddNodeLabelQuery "7" "My Label").data :=
  ⟨(labelSanitizationBehavior "My Label" "7").1,
   (labelSanitizationBehavior "My Label" "7").2.2.2.2.2.1 'y' (by decide)⟩

/-- C7 counterexample: with a held (expired) token and the backend
answering HTTP 401, `runQuery` performs zero re-login attempts and
surfaces the auth failure (`Unauthorized: Token expired`) to the caller
— even though a re-login would have succeeded. -/
theorem expiredTokenNotRetried :
    falkorRunQuery { accessToken := some "stale", currentConfig := some "cfg" }
      (Except.ok "fresh") 401 = (QueryOutcome.unauthorized, 0) := by
  decide

/-- C7 amended: the transparent single re-authentication exists only for
the token-never-obtained case — with no token but a stored config,
`runQuery` logs in exactly once and then behaves exactly as if the token
had been held; on HTTP 401 (token expired) no re-authentication happens
and the auth failure is thrown to the caller; with neither token nor
config the call fails fast as not connected. -/
theorem lazyLoginOnlyWhenTokenMissing (cfg tok t : String)
    (lr : Except String String) (fetchStatus : Nat) :
    falkorRunQuery { accessToken := none, currentConfig := some cfg }
        (Except.ok tok) fetchStatus =
      ((falkorRunQuery { accessToken := some tok, currentConfig := some cfg }
          lr fetchStatus).1, 1) ∧
    falkorRunQuery { accessToken := some t, currentConfig := some cfg } lr 401 =
      (QueryOutcome.unauthorized, 0) ∧
    falkorRunQuery { accessToken := none, currentConfig := none } lr
        fetchStatus = (QueryOutcome.notConnected, 0) := by
  refine ⟨?_, rfl, rfl⟩
  by_cases h1 : fetchStatus = 401
  · subst h1
    rfl
  · have hb1 : (fetchStatus == 401) = false := beq_eq_false_iff_ne.mpr h1
    by_cases h2 : (decide (fetchStatus < 200) || decide (300 ≤ fetchStatus)) = true
    · simp [falkorRunQuery, ensureConnection, hb1, h2]
    · simp [falkorRunQuery, ensureConnection, hb1, h2]

/-- C8 witness: on a concrete store holding draft node `"5"`, the
commit issues exactly the create call and the immediate discard is a
no-op. -/
theorem commitThenDiscardSingleCall_witness :
    (commitDraftNodeSync sampleDraftState "5" "Alice").2 =
      [BackendCall.createNode "Alice"] ∧
    discardDraftNode (commitDraftNodeSync sampleDraftState "5" "Alice").1 "5" =
      ((commitDraftNodeSync sampleDraftState "5" "Alice").1, []) :=
  commitThenDiscardSingleCall sampleDraftState "5" "Alice" sampleDraftNode
    (by decide) (by decide)

/-- C9: on commit success the store replaces the placeholder id with the
backend-assigned id on the node itself (also recording it in the node's
`_elementId` metadata), leaves the node's position, visual type, flags
and every other data key unchanged, rewrites the source and target of
every edge that referenced the placeholder while leaving all other edge
fields unchanged, and leaves every other node unchanged. -/
theorem idReconciliationRewritesNodeAndEdges (s : StoreState)
    (nodeId newId : String)
    (i : Nat) (hi : i < s.nodes.length)
    (hi2 : i < (commitDraftNodeSuccess s nodeId newId).nodes.length)
    (hmatch : (s.nodes.get ⟨i, hi⟩).id = nodeId)
    (k : String) (hk : k ≠ "_elementId")
    (otherId : String) (hother : otherId ≠ nodeId) (hother2 : otherId ≠ newId)
    (p : Nat) (hp : p < s.edges.length)
    (hp2 : p < (commitDraftNodeSuccess s nodeId newId).edges.length) :
    ((commitDraftNodeSuccess s nodeId newId).nodes.get ⟨i, hi2⟩).id = newId ∧
    ((commitDraftNodeSuccess s nodeId newId).nodes.get ⟨i, hi2⟩).position =
      (s.nodes.get ⟨i, hi⟩).position ∧
    ((commitDraftNodeSuccess s nodeId newId).nodes.get ⟨i, hi2⟩).ntype =
      (s.nodes.get ⟨i, hi⟩).ntype ∧
    ((commitDraftNodeSuccess s nodeId newId).nodes.get ⟨i, hi2⟩).selected =
      (s.nodes.get ⟨i, hi⟩).selected ∧
    ((commitDraftNodeSuccess s nodeId newId).nodes.get ⟨i, hi2⟩).hidden =
      (s.nodes.get ⟨i, hi⟩).hidden ∧
    getProp ((commitDraftNodeSuccess s nodeId newId).nodes.get
      ⟨i, hi2⟩).data "_elementId" = JVal.vstr newId ∧
    getProp ((commitDraftNodeSuccess s nodeId newId).nodes.get
      ⟨i, hi2⟩).data k = getProp (s.nodes.get ⟨i, hi⟩).data k ∧
    (commitDraftNodeSuccess s nodeId newId).nodes.find?
      (fun n => n.id == otherId) = s.nodes.find? (fun n => n.id == otherId) ∧
    ((commitDraftNodeSuccess s nodeId newId).edges.get ⟨p, hp2⟩).source =
      (if (s.edges.get ⟨p, hp⟩).source = nodeId then newId
       else (s.edges.get ⟨p, hp⟩).source) ∧
    ((commitDraftNodeSuccess s nodeId newId).edges.get ⟨p, hp2⟩).target =
      (if (s.edges.get ⟨p, hp⟩).target = nodeId then newId
       else (s.edges.get ⟨p, hp⟩).target) ∧
    ((commitDraftNodeSuccess s nodeId newId).edges.get ⟨p, hp2⟩).id =
      (s.edges.get ⟨p, hp⟩).id ∧
    ((commitDraftNodeSuccess s nodeId newId).edges.get ⟨p, hp2⟩).data =
      (s.edges.get ⟨p, hp⟩).data ∧
    ((commitDraftNodeSuccess s nodeId newId).edges.get ⟨p, hp2⟩).sourceHandle =
      (s.edges.get ⟨p, hp⟩).sourceHandle ∧
    ((commitDraftNodeSuccess s nodeId newId).edges.get ⟨p, hp2⟩).targetHandle =
      (s.edges.get ⟨p, hp⟩).targetHandle ∧
    ((commitDraftNodeSuccess s nodeId newId).edges.get ⟨p, hp2⟩).etype =
      (s.edges.get ⟨p, hp⟩).etype ∧
    ((commitDraftNodeSuccess s nodeId newId).edges.get ⟨p, hp2⟩).selected =
      (s.edges.get ⟨p, hp⟩).selected ∧
    ((commitDraftNodeSuccess s nodeId newId).edges.get ⟨p, hp2⟩).hidden =
      (s.edges.get ⟨p, hp⟩).hidden := by
  have hbeq : ((s.nodes.get ⟨i, hi⟩).id == nodeId) = true :=
    beq_iff_eq.mpr hmatch
  have hgetN : (commitDraftNodeSuccess s nodeId newId).nodes.get ⟨i, hi2⟩ =
      { s.nodes.get ⟨i, hi⟩ with id := newId, data := setProp (s.nodes.get ⟨i, hi⟩).data "_elementId" (JVal.vstr newId) } := by
    have h := get_mapNodesById s.nodes nodeId
      (fun n => { n with id := newId, data := setProp n.data "_elementId" (JVal.vstr newId) }) i hi
    simp only [commitDraftNodeSuccess]
    rw [h, hbeq]
    simp
  have hgetE : (commitDraftNodeSuccess s nodeId newId).edges.get ⟨p, hp2⟩ =
      { s.edges.get ⟨p, hp⟩ with
        source := if (s.edges.get ⟨p, hp⟩).source == nodeId then newId
          else (s.edges.get ⟨p, hp⟩).source,
        target := if (s.edges.get ⟨p, hp⟩).target == nodeId then newId
          else (s.edges.get ⟨p, hp⟩).target } := by
    simp [commitDraftNodeSuccess]
  refine ⟨?_, ?_, ?_, ?_, ?_, ?_, ?_, ?_, ?_, ?_, ?_, ?_, ?_, ?_, ?_, ?_, ?_⟩
  · rw [hgetN]
  · rw [hgetN]
  · rw [hgetN]
  · rw [hgetN]
  · rw [hgetN]
  · rw [hgetN]
    exact getProp_setProp_self _ _ _
  · rw [hgetN]
    exact getProp_setProp_ne _ _ _ _ hk
  · simp only [commitDraftNodeSuccess]
    exact find?_mapNodesById_reassign s.nodes nodeId otherId newId
      _ (fun n => rfl) hother hother2
  · rw [hgetE]
    by_cases hb : (s.edges.get ⟨p, hp⟩).source = nodeId <;> simp [hb]
  · rw [hgetE]
    by_cases hb : (s.edges.get ⟨p, hp⟩).target = nodeId <;> simp [hb]
  · rw [hgetE]
  · rw [hgetE]
  · rw [hgetE]
  · rw [hgetE]
  · rw [hgetE]
  · rw [hgetE]
  · rw [hgetE]

/-- C9 witness: committing the draft `"5"` with backend id `"neo:1"`
rewrites the node id, keeps its position `(100, 100)`, records the
element id, and rewrites the edge source that referenced `"5"`. -/
theorem idReconciliationRewritesNodeAndEdges_witness :
    ((commitDraftNodeSuccess sampleDraftState "5" "neo:1").nodes.get
      ⟨0, by decide⟩).id = "neo:1" ∧
    ((commitDraftNodeSuccess sampleDraftState "5" "neo:1").nodes.get
      ⟨0, by decide⟩).position = (100, 100) ∧
    getProp ((commitDraftNodeSuccess sampleDraftState "5" "neo:1").nodes.get
      ⟨0, by decide⟩).data "_elementId" = JVal.vstr "neo:1" ∧
    ((commitDraftNodeSuccess sampleDraftState "5" "neo:1").edges.get
      ⟨0, by decide⟩).source = "neo:1" ∧
    ((commitDraftNodeSuccess sampleDraftState "5" "neo:1").edges.get
      ⟨0, by decide⟩).target = "n1" := by
  have h := idReconciliationRewritesNodeAndEdges sampleDraftState "5" "neo:1"
    0 (by decide) (by decide) (by decide) "label" (by decide)
    "n1" (by decide) (by decide) 0 (by decide) (by decide)
  refine ⟨h.1, ?_, h.2.2.2.2.2.1, ?_, ?_⟩
  · rw [h.2.1]
    decide
  · rw [h.2.2.2.2.2.2.2.2.1]
    decide
  · rw [h.2.2.2.2.2.2.2.2.2.1]
    decide

end Graphive
